import Mathlib

/-!
Verification development for the usage-accounting and lifecycle-review
subsystem of the Marzban-optimize control plane.  The definitions below are a
shallow embedding of the Python source: pure decision logic becomes Lean
functions, MongoDB collections become association lists, and effectful calls
to external collaborators become explicit effect values or result parameters.
Machine integers are modelled as Int (Python integers are unbounded), and the
Python float usage coefficients are modelled as rationals with explicit
truncation to Int where the source applies int().
-/

namespace Marzban

/-! ## Hour-bucket usage ledger

Embeds the NodeUserUsage collection (app/db/models.py) together with the crud
operations get_node_user_usages_for_hour, create_node_user_usages and
update_node_user_usage (app/db/crud.py) and the accumulator record_user_stats
(app/jobs/record_usages.py).  setup_database.py installs a unique index on
(created_at, user_id, node_id), so inserting a document whose key already
exists raises a duplicate-key error; create_node_user_usages has no handler
for it, which the Except result models. -/

/-- Key of a per-user hour-bucket row: user id, node id (none is the master
node) and the creation timestamp truncated to the hour. -/
structure BucketKey where
  userId : String
  nodeId : Option String
  hour : Int
deriving DecidableEq, Repr

/-- The node_user_usages collection: rows keyed by BucketKey carrying the
used_traffic counter. -/
abbrev BucketStore := List (BucketKey × Int)

/-- Value of the bucket row with the given key, if one exists (first match,
as a Mongo find_one or update_one addresses a single document). -/
def bucketValue (store : BucketStore) (k : BucketKey) : Option Int :=
  match store.find? (fun r => r.1 = k) with
  | some r => some r.2
  | none => none

/-- crud.get_node_user_usages_for_hour: all rows of the collection whose
node_id and created_at match. -/
def getNodeUserUsagesForHour (store : BucketStore) (nodeId : Option String)
    (hour : Int) : List (BucketKey × Int) :=
  store.filter (fun r => r.1.nodeId = nodeId && r.1.hour = hour)

/-- crud.create_node_user_usages: insert_many of zero-valued rows, one per
user id.  The unique index on (created_at, user_id, node_id) makes the insert
raise a duplicate-key error when a row with the same key already exists; the
source has no try/except around it, so the error propagates. -/
def createNodeUserUsages (store : BucketStore) (userIds : List String)
    (nodeId : Option String) (hour : Int) : Except String BucketStore :=
  if userIds.any (fun uid => (bucketValue store ⟨uid, nodeId, hour⟩).isSome) then
    Except.error "DuplicateKeyError"
  else
    Except.ok (store ++ userIds.map (fun uid => (⟨uid, nodeId, hour⟩, 0)))

/-- crud.update_node_user_usage: update_one with an atomic increment of
used_traffic on the row matching (user_id, node_id, created_at); without
upsert a missing row makes it a no-op. -/
def updateNodeUserUsage (store : BucketStore) (uid : String)
    (nodeId : Option String) (hour : Int) (usage : Int) : BucketStore :=
  match store with
  | [] => []
  | r :: rest =>
    if r.1 = (⟨uid, nodeId, hour⟩ : BucketKey) then (r.1, r.2 + usage) :: rest
    else r :: updateNodeUserUsage rest uid nodeId hour usage

/-- record_user_stats (app/jobs/record_usages.py), split into its two phases
so that the read snapshot and the store seen by the insert can differ: the
snapshot argument is the store as read by get_node_user_usages_for_hour at
the start of the call, and the store argument is the store at the moment
insert_many executes.  A concurrent writer acting between the two phases is
expressed by snapshot and store differing.  The sequential (race-free) call
is recordUserStats below, where both coincide. -/
def recordUserStatsPhased (snapshot store : BucketStore)
    (params : List (String × Int)) (nodeId : Option String) (hour : Int)
    (factor : Int) : Except String BucketStore :=
  if params.isEmpty then Except.ok store
  else
    match createNodeUserUsages store
        (((params.map Prod.fst).filter (fun uid =>
            !(getNodeUserUsagesForHour snapshot nodeId hour).any
              (fun r => r.1.userId = uid))).dedup)
        nodeId hour with
    | Except.error e => Except.error e
    | Except.ok store1 =>
      Except.ok (params.foldl
        (fun st p => updateNodeUserUsage st p.1 nodeId hour (p.2 * factor))
        store1)

/-- record_user_stats under sequential semantics: the snapshot read at the
start of the call is exactly the store the insert sees. -/
def recordUserStats (store : BucketStore) (params : List (String × Int))
    (nodeId : Option String) (hour : Int) (factor : Int) :
    Except String BucketStore :=
  recordUserStatsPhased store store params nodeId hour factor

/-! ## Stats collector

Embeds get_users_stats and the merging loop of record_user_usages
(app/jobs/record_usages.py).  The node api call is represented by its
outcome: an Except value that is an error exactly when the poll raised an
XrayError.  Python floats (the usage coefficients) are modelled as rationals
and int() as truncation toward zero. -/

/-- One raw traffic counter returned by a node poll; uid is the part of the
stat name before the first dot, which get_users_stats uses as the grouping
key. -/
structure RawStat where
  uid : String
  value : Int
deriving DecidableEq, Repr

/-- Insert a (uid, value) pair into an accumulation list the way a Python
defaultdict(int) update params[uid] += value behaves: add to the existing
entry, or append a fresh entry in insertion order. -/
def addParam (acc : List (String × Int)) (uid : String) (v : Int) :
    List (String × Int) :=
  match acc with
  | [] => [(uid, v)]
  | (u, x) :: rest =>
    if u = uid then (u, x + v) :: rest else (u, x) :: addParam rest uid v

/-- Accumulated value for a uid in a params list, zero when absent (the
dict lookup view of the params list). -/
def usageOf : List (String × Int) → String → Int
  | [], _ => 0
  | p :: rest, uid => if p.1 = uid then p.2 else usageOf rest uid

/-- get_users_stats: on an XrayError the whole poll yields an empty list;
otherwise stats with a zero (falsy) value are dropped and the remaining
values are summed per uid into one params entry per uid. -/
def getUsersStats (result : Except Unit (List RawStat)) :
    List (String × Int) :=
  match result with
  | Except.error _ => []
  | Except.ok stats =>
    (stats.filter (fun s => s.value ≠ 0)).foldl
      (fun acc s => addParam acc s.uid s.value) []

/-- Python int() applied to a rational: truncation toward zero, which is what
int(value * coefficient) performs on the float product. -/
def pyInt (q : ℚ) : ℤ :=
  Int.tdiv q.num q.den

/-- One polled source of a collection cycle: its node id (none is the master
api instance), its configured usage_coefficient and the outcome of its
get_users_stats poll this cycle. -/
structure SourcePoll where
  nodeId : Option String
  coefficient : ℚ
  poll : Except Unit (List RawStat)

/-- The merging loop of record_user_usages: for every source and every param
of that source, users_usage[uid] += int(value * coefficient). -/
def mergeUsersUsage (sources : List SourcePoll) : List (String × Int) :=
  sources.foldl
    (fun acc src =>
      (getUsersStats src.poll).foldl
        (fun acc2 p => addParam acc2 p.1 (pyInt ((p.2 : ℚ) * src.coefficient)))
        acc)
    []

/-! ## User records and the lifecycle reviewer

Embeds the relevant fields of the User document (app/db/models.py), the
rollover operation reset_user_by_next (app/db/crud.py) and the review job
(app/jobs/review_users.py).  Timestamps are epoch seconds as Int; a Python
datetime object is truthy whenever it is not None, while the nullable int
fields data_limit and expire are falsy both when None and when 0, which the
definitions below reproduce exactly. -/

/-- User lifecycle status (app/models/user.py UserStatus, as consumed by the
reviewer). -/
inductive UserStatus where
  | active
  | disabled
  | limited
  | expired
  | onHold
deriving DecidableEq, Repr

/-- A next_plans document (app/db/models.py NextPlan): data_limit is a
required int there, expire is nullable. -/
structure NextPlanRec where
  dataLimit : Int
  expire : Option Int
  addRemainingTraffic : Bool
  fireOnEither : Bool
deriving DecidableEq, Repr

/-- The fields of a users document that the reviewer and the rollover read.
The nextPlan field is the hydrated pending-rollover reference the review job
tests with hasattr(user, next_plan attribute) and an is-not-None check.
Modelled from the spec: the query layer get_users that hydrates users is not
under src/; per the spec data model a user carries an optional next_plan
rollover spec. -/
structure UserRec where
  username : String
  status : UserStatus
  usedTraffic : Int
  dataLimit : Option Int
  expire : Option Int
  nextPlan : Option NextPlanRec
  onlineAt : Option Int
  onHoldTimeout : Option Int
  onHoldExpireDuration : Option Int
  editAt : Option Int
  createdAt : Int
deriving DecidableEq, Repr

/-- The review condition limited = user.data_limit and user.used_traffic >=
user.data_limit, with Python truthiness: a data_limit of None or 0 is falsy,
so the whole conjunction is false. -/
def limitedOf (u : UserRec) : Bool :=
  match u.dataLimit with
  | some d => decide (d ≠ 0) && decide (d ≤ u.usedTraffic)
  | none => false

/-- The review condition expired = user.expire and user.expire <= now_ts,
with Python truthiness: an expire of None or 0 is falsy. -/
def expiredOf (u : UserRec) (now : Int) : Bool :=
  match u.expire with
  | some e => decide (e ≠ 0) && decide (e ≤ now)
  | none => false

/-- crud.reset_user_by_next.  Returns none when the user has no hydrated
next_plan or when the next_plans collection has no row for the user
(planRow); otherwise returns the updated user together with the next_plans
row after the call (deleted, hence none).  Since NextPlan.data_limit is a
required int, the data_limit branch of the source always runs: data_limit is
overwritten and used_traffic reset to 0.  The remaining-traffic credit is
max(0, data_limit - used_traffic) when the old data_limit is truthy, else
0. -/
def reset_user_by_next (u : UserRec) (planRow : Option NextPlanRec) :
    Option (UserRec × Option NextPlanRec) :=
  if u.nextPlan.isNone then none
  else
    match planRow with
    | none => none
    | some np =>
      some
        ({ u with
            dataLimit := some (if np.addRemainingTraffic then
                np.dataLimit +
                  (match u.dataLimit with
                   | some d => if d ≠ 0 then max 0 (d - u.usedTraffic) else 0
                   | none => 0)
              else np.dataLimit),
            usedTraffic := 0,
            expire := (match np.expire with
              | some e => some e
              | none => u.expire),
            status := UserStatus.active,
            nextPlan := none },
         none)

/-- Outcome of the per-user decision logic of review() for an active user:
rollover (reset_user_by_next fired, continue), a transition to limited or to
expired, or no status change. -/
inductive ReviewOutcome where
  | rollover
  | toLimited
  | toExpired
  | stayActive
deriving DecidableEq, Repr

/-- The decision chain of review() lines 68-89: compute limited and expired,
try the next-plan branch (guarded by the hydrated next_plan and the fetched
next_plans row), then fall through to the limited / expired / stay-active
chain. -/
def reviewDecision (u : UserRec) (planRow : Option NextPlanRec) (now : Int) :
    ReviewOutcome :=
  let limited := limitedOf u
  let expired := expiredOf u now
  if (limited || expired) && u.nextPlan.isSome then
    match planRow with
    | some np =>
      if np.fireOnEither then ReviewOutcome.rollover
      else if limited && expired then ReviewOutcome.rollover
      else if limited then ReviewOutcome.toLimited
      else if expired then ReviewOutcome.toExpired
      else ReviewOutcome.stayActive
    | none =>
      if limited then ReviewOutcome.toLimited
      else if expired then ReviewOutcome.toExpired
      else ReviewOutcome.stayActive
  else
    if limited then ReviewOutcome.toLimited
    else if expired then ReviewOutcome.toExpired
    else ReviewOutcome.stayActive

/-! ## Threshold notification reminders

Embeds add_notification_reminders (app/jobs/review_users.py).  The loop
scans sorted(NOTIFY_REACHED_USAGE_PERCENT, reverse=True) and breaks at the
first threshold below or equal to the usage percent, firing only when no
live reminder row exists for it; the days-left loop is symmetric over
sorted ascending thresholds. -/

/-- Insert into a descending-sorted list (models the order produced by
Python sorted(..., reverse=True)). -/
def insertDesc (x : Nat) : List Nat → List Nat
  | [] => [x]
  | y :: ys => if y ≤ x then x :: y :: ys else y :: insertDesc x ys

/-- Descending sort of the configured thresholds. -/
def sortDesc : List Nat → List Nat
  | [] => []
  | x :: xs => insertDesc x (sortDesc xs)

/-- Insert into an ascending-sorted list (models Python sorted). -/
def insertAsc (x : Nat) : List Nat → List Nat
  | [] => [x]
  | y :: ys => if x ≤ y then x :: y :: ys else y :: insertAsc x ys

/-- Ascending sort of the configured thresholds. -/
def sortAsc : List Nat → List Nat
  | [] => []
  | x :: xs => insertAsc x (sortAsc xs)

/-- Modelled from the spec: calculate_usage_percent (app/utils/helpers.py is
not under src/); per spec section 4.5, usage_percent = used_traffic /
data_limit * 100. -/
def calculate_usage_percent (usedTraffic dataLimit : Int) : ℚ :=
  (usedTraffic : ℚ) / (dataLimit : ℚ) * 100

/-- Modelled from the spec: calculate_expiration_days (app/utils/helpers.py
is not under src/); the whole days left until the expire deadline. -/
def calculate_expiration_days (expire now : Int) : Int :=
  Int.fdiv (expire - now) 86400

/-- The reminder rows of one (user, reminder type): threshold together with
the optional expires_at of the row. -/
abbrev ReminderRows := List (Nat × Option Int)

/-- Modelled from the spec: crud.get_notification_reminder is not under
src/; per the spec a reminder row past its expires_at is treated as absent
(lazily evicted on read), so a live reminder for a threshold is a row whose
expires_at is unset or still in the future. -/
def hasLiveReminder (rows : ReminderRows) (threshold : Nat) (now : Int) :
    Bool :=
  rows.any (fun r =>
    r.1 = threshold &&
      (match r.2 with
       | none => true
       | some t => decide (now < t)))

/-- The threshold the percent loop stops at: the first entry of the
descending-sorted configured thresholds that is ≤ the usage percent (the
break runs whether or not a notification fires). -/
def percentCandidate (thresholds : List Nat) (usagePercent : ℚ) :
    Option Nat :=
  (sortDesc thresholds).find? (fun p => decide ((p : ℚ) ≤ usagePercent))

/-- The percent threshold whose notification actually fires this cycle: the
candidate, provided no live reminder row exists for it. -/
def firedPercent (thresholds : List Nat) (usagePercent : ℚ)
    (rows : ReminderRows) (now : Int) : Option Nat :=
  match percentCandidate thresholds usagePercent with
  | some p => if hasLiveReminder rows p now then none else some p
  | none => none

/-- The threshold the days-left loop stops at: the first entry of the
ascending-sorted day thresholds with expire_days ≤ days_left. -/
def daysCandidate (thresholds : List Nat) (expireDays : Int) : Option Nat :=
  (sortAsc thresholds).find? (fun d => decide (expireDays ≤ (d : Int)))

/-- The days-left threshold whose notification actually fires this cycle. -/
def firedDays (thresholds : List Nat) (expireDays : Int)
    (rows : ReminderRows) (now : Int) : Option Nat :=
  match daysCandidate thresholds expireDays with
  | some d => if hasLiveReminder rows d now then none else some d
  | none => none

/-! ## Review effects and the per-user processing -/

/-- Reminder types (app/models/user.py ReminderType). -/
inductive ReminderKind where
  | dataUsage
  | expirationDate
deriving DecidableEq, Repr

/-- The externally visible side effects one review cycle can emit per user,
in program order: xray.operations.remove_user, db.update_user_status,
report.status_change, the rollover path reset_user_by_next_report (db reset,
xray update and rollover notification), db.start_user_expire, and the
reminder lookups and notification dispatches of add_notification_reminders. -/
inductive Effect where
  | removeFromProxy (username : String)
  | persistStatus (username : String) (s : UserStatus)
  | statusNotice (username : String) (s : UserStatus)
  | rolloverApplied (username : String)
  | startExpire (username : String)
  | reminderChecked (username : String) (kind : ReminderKind) (threshold : Nat)
  | reminderFired (username : String) (kind : ReminderKind) (threshold : Nat)
deriving DecidableEq, Repr

/-- add_notification_reminders as the list of effects it emits: the percent
block runs when data_limit is truthy, the days block when expire is truthy;
each block checks the reminder row of its stop threshold and dispatches at
most one notification. -/
def addNotificationReminders (u : UserRec) (percentThresholds : List Nat)
    (dayThresholds : List Nat) (percentRows dayRows : ReminderRows)
    (now : Int) : List Effect :=
  (match u.dataLimit with
   | some d =>
     if d ≠ 0 then
       match percentCandidate percentThresholds
           (calculate_usage_percent u.usedTraffic d) with
       | some p =>
         Effect.reminderChecked u.username ReminderKind.dataUsage p ::
           (if hasLiveReminder percentRows p now then []
            else [Effect.reminderFired u.username ReminderKind.dataUsage p])
       | none => []
     else []
   | none => []) ++
  (match u.expire with
   | some e =>
     if e ≠ 0 then
       match daysCandidate dayThresholds (calculate_expiration_days e now) with
       | some dl =>
         Effect.reminderChecked u.username ReminderKind.expirationDate dl ::
           (if hasLiveReminder dayRows dl now then []
            else [Effect.reminderFired u.username ReminderKind.expirationDate dl])
       | none => []
     else []
   | none => [])

/-- The body of the active-user loop of review() as the list of effects it
emits for one user: a rollover continues without any status transition; a
limited or expired transition deprovisions, persists and notifies; otherwise
the reminder evaluation runs only when WEBHOOK_ADDRESS is configured. -/
def processActiveUser (u : UserRec) (planRow : Option NextPlanRec)
    (now : Int) (webhookConfigured : Bool) (percentThresholds : List Nat)
    (dayThresholds : List Nat) (percentRows dayRows : ReminderRows) :
    List Effect :=
  match reviewDecision u planRow now with
  | ReviewOutcome.rollover => [Effect.rolloverApplied u.username]
  | ReviewOutcome.toLimited =>
    [Effect.removeFromProxy u.username,
     Effect.persistStatus u.username UserStatus.limited,
     Effect.statusNotice u.username UserStatus.limited]
  | ReviewOutcome.toExpired =>
    [Effect.removeFromProxy u.username,
     Effect.persistStatus u.username UserStatus.expired,
     Effect.statusNotice u.username UserStatus.expired]
  | ReviewOutcome.stayActive =>
    if webhookConfigured then
      addNotificationReminders u percentThresholds dayThresholds
        percentRows dayRows now
    else []

/-- The on-hold activation test of review() lines 107-118: base is edit_at
when set, else created_at (datetimes are truthy whenever present); the user
activates when online_at is set and at or after base, or else when
on_hold_timeout is set and has elapsed. -/
def onHoldActivationDue (u : UserRec) (now : Int) : Bool :=
  match u.onlineAt with
  | some o =>
    if (match u.editAt with | some t => t | none => u.createdAt) ≤ o then
      true
    else
      match u.onHoldTimeout with
      | some t => decide (t ≤ now)
      | none => false
  | none =>
    match u.onHoldTimeout with
    | some t => decide (t ≤ now)
    | none => false

/-- The body of the on-hold loop of review(): on activation the status is
persisted, the expiration timer started (db.start_user_expire) and a status
change notification emitted; otherwise the user is skipped. -/
def processOnHoldUser (u : UserRec) (now : Int) : List Effect :=
  if onHoldActivationDue u now then
    [Effect.persistStatus u.username UserStatus.active,
     Effect.startExpire u.username,
     Effect.statusNotice u.username UserStatus.active]
  else []

/-- The user loop of review(): each user is processed in turn and there is
no try/except around the body, so an exception raised while processing one
user propagates and the remaining users of the cycle are never reached. -/
def reviewRun (users : List UserRec)
    (process : UserRec → Except String (List Effect)) :
    Except String (List Effect) :=
  match users with
  | [] => Except.ok []
  | u :: rest =>
    match process u with
    | Except.error e => Except.error e
    | Except.ok es =>
      match reviewRun rest process with
      | Except.error e => Except.error e
      | Except.ok rest2 => Except.ok (es ++ rest2)

/-! ## Usage resets and usage increments on user and admin documents

Embeds reset_user_data_usage, reset_admin_usage, reset_all_users_data_usage,
update_users_usage and update_admins_usage (app/db/crud.py).  The users and
admins collections are association lists from document id to the relevant
counters; the two reset-log collections are append-only lists. -/

/-- The fields of a users document the usage operations touch. -/
structure UserDoc where
  id : String
  usedTraffic : Int
  adminId : Option String
deriving DecidableEq, Repr

/-- The fields of an admins document the usage operations touch. -/
structure AdminDoc where
  id : String
  usersUsage : Int
deriving DecidableEq, Repr

/-- A UserUsageResetLogs or AdminUsageLogs document: the owning id and the
usage value at the moment of the reset. -/
structure ResetLog where
  ownerId : String
  usedTrafficAtReset : Int
deriving DecidableEq, Repr

/-- The collections the usage reset and increment operations read and
write. -/
structure AccountStore where
  users : List UserDoc
  admins : List AdminDoc
  userLogs : List ResetLog
  adminLogs : List ResetLog
deriving DecidableEq, Repr

/-- used_traffic of the users document with the given id, if present. -/
def userTrafficOf (s : AccountStore) (uid : String) : Option Int :=
  match s.users.find? (fun u => u.id = uid) with
  | some u => some u.usedTraffic
  | none => none

/-- users_usage of the admins document with the given id, if present. -/
def adminUsageOf (s : AccountStore) (aid : String) : Option Int :=
  match s.admins.find? (fun a => a.id = aid) with
  | some a => some a.usersUsage
  | none => none

/-- crud.reset_user_data_usage: first insert a UserUsageResetLogs row with
the current used_traffic, then set used_traffic to 0. -/
def reset_user_data_usage (s : AccountStore) (uid : String) : AccountStore :=
  match s.users.find? (fun u => u.id = uid) with
  | none => s
  | some u =>
    { s with
        userLogs := s.userLogs ++ [⟨uid, u.usedTraffic⟩],
        users := s.users.map (fun v =>
          if v.id = uid then { v with usedTraffic := 0 } else v) }

/-- crud.reset_admin_usage: first insert an AdminUsageLogs row with the
current users_usage, then set users_usage to 0. -/
def reset_admin_usage (s : AccountStore) (aid : String) : AccountStore :=
  match s.admins.find? (fun a => a.id = aid) with
  | none => s
  | some a =>
    { s with
        adminLogs := s.adminLogs ++ [⟨aid, a.usersUsage⟩],
        admins := s.admins.map (fun b =>
          if b.id = aid then { b with usersUsage := 0 } else b) }

/-- crud.reset_all_users_data_usage: an update_many that sets used_traffic
to 0 on every user of the given admin (or on every user when called by a
super admin, adminId = none).  No reset-log row is written. -/
def reset_all_users_data_usage (s : AccountStore) (adminId : Option String) :
    AccountStore :=
  match adminId with
  | some aid =>
    { s with users := s.users.map (fun v =>
        if v.adminId = some aid then { v with usedTraffic := 0 } else v) }
  | none =>
    { s with users := s.users.map (fun v => { v with usedTraffic := 0 }) }

/-- crud.update_users_usage: per entry an atomic increment of used_traffic
by the merged delta (the online_at refresh is not modelled here). -/
def update_users_usage (s : AccountStore) (usages : List (String × Int)) :
    AccountStore :=
  usages.foldl
    (fun st p =>
      { st with users := st.users.map (fun v =>
          if v.id = p.1 then { v with usedTraffic := v.usedTraffic + p.2 }
          else v) })
    s

/-- crud.update_admins_usage: per admin an atomic increment of
users_usage. -/
def update_admins_usage (s : AccountStore) (usages : List (String × Int)) :
    AccountStore :=
  usages.foldl
    (fun st p =>
      { st with admins := st.admins.map (fun a =>
          if a.id = p.1 then { a with usersUsage := a.usersUsage + p.2 }
          else a) })
    s

/-! ## Concrete sample documents used by witnesses and counterexamples -/

/-- A pending next plan: 500 bytes limit, expiry 9000, credit remaining
traffic, fire on either condition. -/
def sampleNextPlan : NextPlanRec := ⟨500, some 9000, true, true⟩

/-- An over-limit active user carrying a hydrated next plan. -/
def samplePlanUser : UserRec :=
  ⟨"planuser", UserStatus.active, 120, some 100, none, some sampleNextPlan,
    none, none, none, none, 0⟩

/-- A user whose data_limit is present but 0: Python truthiness makes the
limited condition false although the field is set and 0 ≥ 0. -/
def zeroLimitUser : UserRec :=
  ⟨"zerolimit", UserStatus.active, 0, some 0, none, none, none, none, none,
    none, 0⟩

/-- The on-hold user of the spec example: placed on hold at edit_at 1000
with timeout 4600, first seen online at 2800. -/
def onHoldSampleUser : UserRec :=
  ⟨"holduser", UserStatus.onHold, 0, none, none, none, some 2800, some 4600,
    some 86400, some 1000, 0⟩

/-- An on-hold user who never connected, with timeout 4600. -/
def onHoldTimeoutUser : UserRec :=
  ⟨"timeoutuser", UserStatus.onHold, 0, none, none, none, none, some 4600,
    some 86400, some 1000, 0⟩

/-- First user of the failing review batch. -/
def failUserA : UserRec :=
  ⟨"a", UserStatus.active, 0, none, none, none, none, none, none, none, 0⟩

/-- Second user of the failing review batch. -/
def failUserB : UserRec :=
  ⟨"b", UserStatus.active, 0, none, none, none, none, none, none, none, 0⟩

/-- A per-user processing function whose unit for user a raises. -/
def failingProcess : UserRec → Except String (List Effect) :=
  fun u => if u.username = "a" then Except.error "notify failed"
           else Except.ok []

/-- An account store with one user holding 5 bytes of recorded traffic and
one admin holding 7, and empty reset logs. -/
def sampleAccountStore : AccountStore :=
  ⟨[⟨"u1", 5, none⟩], [⟨"a1", 7⟩], [], []⟩

/-! ## Helper lemmas -/

/-- The limited flag spelled out: a nonzero data_limit is set and reached. -/
theorem limitedOf_eq_true_iff (u : UserRec) :
    limitedOf u = true ↔ ∃ d, u.dataLimit = some d ∧ d ≠ 0 ∧ d ≤ u.usedTraffic := by
  unfold limitedOf
  cases h : u.dataLimit with
  | none => simp
  | some d =>
    simp only [Bool.and_eq_true, decide_eq_true_eq, Option.some.injEq]
    constructor
    · rintro ⟨h1, h2⟩
      exact ⟨d, rfl, h1, h2⟩
    · rintro ⟨d2, rfl, h1, h2⟩
      exact ⟨h1, h2⟩

/-- The expired flag spelled out: a nonzero expire is set and has passed. -/
theorem expiredOf_eq_true_iff (u : UserRec) (now : Int) :
    expiredOf u now = true ↔ ∃ e, u.expire = some e ∧ e ≠ 0 ∧ e ≤ now := by
  unfold expiredOf
  cases h : u.expire with
  | none => simp
  | some e =>
    simp only [Bool.and_eq_true, decide_eq_true_eq, Option.some.injEq]
    constructor
    · rintro ⟨h1, h2⟩
      exact ⟨e, rfl, h1, h2⟩
    · rintro ⟨e2, rfl, h1, h2⟩
      exact ⟨h1, h2⟩

/-! ## Claim theorems -/

/-- C2: for an active user carrying a next plan whose row exists, the
reviewer rolls over exactly when fire_on_either is true or limited and
expired hold together; with only the limited condition and fire_on_either
false the ordinary limited transition applies; with neither condition
nothing changes. -/
theorem C2_rollover_truth_table (u : UserRec) (np np0 : NextPlanRec)
    (now : Int) (hn : u.nextPlan = some np0) :
    (reviewDecision u (some np) now = ReviewOutcome.rollover ↔
      ((limitedOf u = true ∨ expiredOf u now = true) ∧
        (np.fireOnEither = true ∨
          (limitedOf u = true ∧ expiredOf u now = true)))) ∧
    (limitedOf u = true → expiredOf u now = false → np.fireOnEither = false →
      reviewDecision u (some np) now = ReviewOutcome.toLimited) ∧
    (limitedOf u = false → expiredOf u now = true → np.fireOnEither = false →
      reviewDecision u (some np) now = ReviewOutcome.toExpired) ∧
    (limitedOf u = false → expiredOf u now = false →
      reviewDecision u (some np) now = ReviewOutcome.stayActive) := by
  cases hL : limitedOf u <;> cases hE : expiredOf u now <;>
    cases hF : np.fireOnEither <;>
      simp [reviewDecision, hn, hL, hE, hF]

/-- C2 witness: the truth table evaluated on a concrete over-limit user with
a fire_on_either next plan. -/
theorem C2_rollover_truth_table_witness :
    (reviewDecision samplePlanUser (some sampleNextPlan) 50 =
        ReviewOutcome.rollover ↔
      ((limitedOf samplePlanUser = true ∨
          expiredOf samplePlanUser 50 = true) ∧
        (sampleNextPlan.fireOnEither = true ∨
          (limitedOf samplePlanUser = true ∧
            expiredOf samplePlanUser 50 = true)))) ∧
    (limitedOf samplePlanUser = true → expiredOf samplePlanUser 50 = false →
      sampleNextPlan.fireOnEither = false →
      reviewDecision samplePlanUser (some sampleNextPlan) 50 =
        ReviewOutcome.toLimited) ∧
    (limitedOf samplePlanUser = false → expiredOf samplePlanUser 50 = true →
      sampleNextPlan.fireOnEither = false →
      reviewDecision samplePlanUser (some sampleNextPlan) 50 =
        ReviewOutcome.toExpired) ∧
    (limitedOf samplePlanUser = false → expiredOf samplePlanUser 50 = false →
      reviewDecision samplePlanUser (some sampleNextPlan) 50 =
        ReviewOutcome.stayActive) :=
  C2_rollover_truth_table samplePlanUser sampleNextPlan sampleNextPlan 50 rfl

/-- C4 counterexample: a user whose data_limit is set (to 0) and whose
used_traffic reaches it is nevertheless not marked limited, because the
review condition uses Python truthiness and a 0 data_limit is falsy; the
user stays active. -/
theorem C4_zero_limit_not_limited :
    zeroLimitUser.dataLimit = some 0 ∧
    (0 : Int) ≤ zeroLimitUser.usedTraffic ∧
    reviewDecision zeroLimitUser none 100 ≠ ReviewOutcome.toLimited ∧
    reviewDecision zeroLimitUser none 100 = ReviewOutcome.stayActive := by
  refine ⟨rfl, by decide, ?_, ?_⟩ <;> decide

/-- C4 (amended): for an active user to whom no rollover applies (no
hydrated next plan or no next_plans row), the user is marked limited exactly
when data_limit is set to a nonzero value and used_traffic reaches it,
marked expired exactly when that fails and expire is set nonzero and has
passed, with limited taking precedence when both hold, and stays active
exactly when neither nonzero condition holds. -/
theorem C4_status_decision (u : UserRec) (planRow : Option NextPlanRec)
    (now : Int) (hnp : u.nextPlan = none ∨ planRow = none) :
    (reviewDecision u planRow now = ReviewOutcome.toLimited ↔
      ∃ d, u.dataLimit = some d ∧ d ≠ 0 ∧ d ≤ u.usedTraffic) ∧
    (reviewDecision u planRow now = ReviewOutcome.toExpired ↔
      ((¬ ∃ d, u.dataLimit = some d ∧ d ≠ 0 ∧ d ≤ u.usedTraffic) ∧
        ∃ e, u.expire = some e ∧ e ≠ 0 ∧ e ≤ now)) ∧
    (reviewDecision u planRow now = ReviewOutcome.stayActive ↔
      ((¬ ∃ d, u.dataLimit = some d ∧ d ≠ 0 ∧ d ≤ u.usedTraffic) ∧
        ¬ ∃ e, u.expire = some e ∧ e ≠ 0 ∧ e ≤ now)) := by
  have hL := limitedOf_eq_true_iff u
  have hE := expiredOf_eq_true_iff u now
  rcases hnp with hnp | hnp
  · cases hl : limitedOf u <;> cases he : expiredOf u now <;>
      simp_all [reviewDecision, hnp, hl, he]
  · subst hnp
    cases hl : limitedOf u <;> cases he : expiredOf u now <;>
      cases hn : u.nextPlan <;> simp_all [reviewDecision, hl, he]

/-- C4 witness: the amended decision evaluated on a concrete over-limit
user without any next plan. -/
theorem C4_status_decision_witness :
    (reviewDecision zeroLimitUser none 100 = ReviewOutcome.toLimited ↔
      ∃ d, zeroLimitUser.dataLimit = some d ∧ d ≠ 0 ∧
        d ≤ zeroLimitUser.usedTraffic) ∧
    (reviewDecision zeroLimitUser none 100 = ReviewOutcome.toExpired ↔
      ((¬ ∃ d, zeroLimitUser.dataLimit = some d ∧ d ≠ 0 ∧
          d ≤ zeroLimitUser.usedTraffic) ∧
        ∃ e, zeroLimitUser.expire = some e ∧ e ≠ 0 ∧ e ≤ 100)) ∧
    (reviewDecision zeroLimitUser none 100 = ReviewOutcome.stayActive ↔
      ((¬ ∃ d, zeroLimitUser.dataLimit = some d ∧ d ≠ 0 ∧
          d ≤ zeroLimitUser.usedTraffic) ∧
        ¬ ∃ e, zeroLimitUser.expire = some e ∧ e ≠ 0 ∧ e ≤ 100)) :=
  C4_status_decision zeroLimitUser none 100 (Or.inl rfl)

/-- C7: an on_hold user activates when they were online at or after the base
time (edit_at when set, else created_at); failing that, when the on-hold
timeout is set and has elapsed; otherwise nothing changes this cycle.  On
activation the status is persisted, the expiration timer is started and a
status-change notification is emitted. -/
theorem C7_on_hold_activation (u : UserRec) (now : Int) :
    (∀ o, u.onlineAt = some o →
      (match u.editAt with | some t => t | none => u.createdAt) ≤ o →
      processOnHoldUser u now =
        [Effect.persistStatus u.username UserStatus.active,
         Effect.startExpire u.username,
         Effect.statusNotice u.username UserStatus.active]) ∧
    ((∀ o, u.onlineAt = some o →
        o < (match u.editAt with | some t => t | none => u.createdAt)) →
      ∀ t, u.onHoldTimeout = some t → t ≤ now →
      processOnHoldUser u now =
        [Effect.persistStatus u.username UserStatus.active,
         Effect.startExpire u.username,
         Effect.statusNotice u.username UserStatus.active]) ∧
    ((∀ o, u.onlineAt = some o →
        o < (match u.editAt with | some t => t | none => u.createdAt)) →
      (∀ t, u.onHoldTimeout = some t → now < t) →
      processOnHoldUser u now = []) := by
  refine ⟨?_, ?_, ?_⟩
  · intro o ho hbase
    simp [processOnHoldUser, onHoldActivationDue, ho, hbase]
  · intro hlate t ht htnow
    cases honl : u.onlineAt with
    | none => simp [processOnHoldUser, onHoldActivationDue, honl, ht, htnow]
    | some o =>
      have hlt := hlate o honl
      simp [processOnHoldUser, onHoldActivationDue, honl, ht, htnow,
        not_le.mpr hlt]
  · intro hlate htime
    cases honl : u.onlineAt with
    | none =>
      cases hto : u.onHoldTimeout with
      | none => simp [processOnHoldUser, onHoldActivationDue, honl, hto]
      | some t =>
        have := htime t hto
        simp [processOnHoldUser, onHoldActivationDue, honl, hto,
          not_le.mpr this]
    | some o =>
      have hlt := hlate o honl
      cases hto : u.onHoldTimeout with
      | none =>
        simp [processOnHoldUser, onHoldActivationDue, honl, hto,
          not_le.mpr hlt]
      | some t =>
        have := htime t hto
        simp [processOnHoldUser, onHoldActivationDue, honl, hto,
          not_le.mpr hlt, not_le.mpr this]

/-- C7 witness: the spec example user held at 1000 who connects at 2800
activates, and the never-connected user activates once now passes the 4600
timeout. -/
theorem C7_on_hold_activation_witness :
    processOnHoldUser onHoldSampleUser 3000 =
      [Effect.persistStatus "holduser" UserStatus.active,
       Effect.startExpire "holduser",
       Effect.statusNotice "holduser" UserStatus.active] ∧
    processOnHoldUser onHoldTimeoutUser 5000 =
      [Effect.persistStatus "timeoutuser" UserStatus.active,
       Effect.startExpire "timeoutuser",
       Effect.statusNotice "timeoutuser" UserStatus.active] :=
  ⟨(C7_on_hold_activation onHoldSampleUser 3000).1 2800 rfl (by decide),
   (C7_on_hold_activation onHoldTimeoutUser 5000).2.1
     (fun o h => by simp [onHoldTimeoutUser] at h) 4600 rfl (by decide)⟩

/-- C10: when no webhook address is configured, processing an active user
never checks, creates or dispatches a threshold reminder, whatever the
decision outcome for that user is. -/
theorem C10_no_reminders_without_webhook (u : UserRec)
    (planRow : Option NextPlanRec) (now : Int)
    (percentThresholds dayThresholds : List Nat)
    (percentRows dayRows : ReminderRows) :
    ∀ name kind threshold,
      Effect.reminderChecked name kind threshold ∉
        processActiveUser u planRow now false percentThresholds
          dayThresholds percentRows dayRows ∧
      Effect.reminderFired name kind threshold ∉
        processActiveUser u planRow now false percentThresholds
          dayThresholds percentRows dayRows := by
  intro name kind threshold
  cases h : reviewDecision u planRow now <;>
    simp [processActiveUser, h]

/-- C10 witness: with the webhook gate off, processing a concrete in-limit
active user emits neither the reminder lookup nor the reminder dispatch for
the 75 percent threshold. -/
theorem C10_no_reminders_without_webhook_witness :
    Effect.reminderChecked "c10" ReminderKind.dataUsage 75 ∉
      processActiveUser
        (⟨"c10", UserStatus.active, 10, some 100, none, none, none, none,
          none, none, 0⟩ : UserRec) none 100 false [50, 75, 90] [7] [] [] ∧
    Effect.reminderFired "c10" ReminderKind.dataUsage 75 ∉
      processActiveUser
        (⟨"c10", UserStatus.active, 10, some 100, none, none, none, none,
          none, none, 0⟩ : UserRec) none 100 false [50, 75, 90] [7] [] [] :=
  C10_no_reminders_without_webhook
    (⟨"c10", UserStatus.active, 10, some 100, none, none, none, none, none,
      none, 0⟩ : UserRec) none 100 [50, 75, 90] [7] [] []
    "c10" ReminderKind.dataUsage 75

/-- C3: when a rollover fires (hydrated plan and row both present), the new
data_limit is next_plan.data_limit plus, when add_remaining_traffic is set
and an old data_limit exists, max(0, old data_limit minus used_traffic);
used_traffic resets to 0; expire is overwritten exactly when
next_plan.expire is set; status becomes active; the next_plans row is
deleted; and the rollover terminates the review of that user this cycle, so
no limited or expired transition effect is emitted for them in the same
pass. -/
theorem C3_rollover_semantics (u : UserRec) (np np0 : NextPlanRec)
    (hn : u.nextPlan = some np0) (hused : 0 ≤ u.usedTraffic) :
    ∃ u2, reset_user_by_next u (some np) = some (u2, none) ∧
      u2.usedTraffic = 0 ∧
      u2.status = UserStatus.active ∧
      u2.nextPlan = none ∧
      (np.addRemainingTraffic = false → u2.dataLimit = some np.dataLimit) ∧
      (∀ d, np.addRemainingTraffic = true → u.dataLimit = some d →
        u2.dataLimit = some (np.dataLimit + max 0 (d - u.usedTraffic))) ∧
      (np.addRemainingTraffic = true → u.dataLimit = none →
        u2.dataLimit = some np.dataLimit) ∧
      (∀ e, np.expire = some e → u2.expire = some e) ∧
      (np.expire = none → u2.expire = u.expire) ∧
      (∀ now webhookConfigured percentThresholds dayThresholds percentRows
          dayRows,
        reviewDecision u (some np) now = ReviewOutcome.rollover →
        processActiveUser u (some np) now webhookConfigured
            percentThresholds dayThresholds percentRows dayRows =
          [Effect.rolloverApplied u.username]) := by
  have hsome : u.nextPlan.isNone = false := by simp [hn]
  have hred : reset_user_by_next u (some np) = some ({ u with
      dataLimit := some (if np.addRemainingTraffic then
        np.dataLimit +
          (match u.dataLimit with
           | some d => if d ≠ 0 then max 0 (d - u.usedTraffic) else 0
           | none => 0)
        else np.dataLimit),
      usedTraffic := 0,
      expire := (match np.expire with
        | some e => some e
        | none => u.expire),
      status := UserStatus.active,
      nextPlan := none }, none) := by
    simp [reset_user_by_next, hsome]
  refine ⟨_, hred, rfl, rfl, rfl, ?_, ?_, ?_, ?_, ?_, ?_⟩
  · intro hadd
    simp [hadd]
  · intro d hadd hd
    simp only [hadd, if_true, hd]
    by_cases hz : d = 0
    · subst hz
      have hmax : max 0 (0 - u.usedTraffic) = 0 := by omega
      simp [hmax]
      exact hused
    · simp [hz]
  · intro hadd hd
    simp [hadd, hd]
  · intro e he
    simp [he]
  · intro he
    simp [he]
  · intro now webhookConfigured percentThresholds dayThresholds percentRows
      dayRows hdec
    simp [processActiveUser, hdec]

/-- C3 witness: the rollover applied to a concrete over-limit user (limit
100, used 120) with plan data_limit 500, add_remaining_traffic and expire
9000. -/
theorem C3_rollover_semantics_witness :
    ∃ u2, reset_user_by_next samplePlanUser (some sampleNextPlan) =
        some (u2, none) ∧
      u2.usedTraffic = 0 ∧
      u2.status = UserStatus.active ∧
      u2.nextPlan = none ∧
      (sampleNextPlan.addRemainingTraffic = false →
        u2.dataLimit = some sampleNextPlan.dataLimit) ∧
      (∀ d, sampleNextPlan.addRemainingTraffic = true →
        samplePlanUser.dataLimit = some d →
        u2.dataLimit = some (sampleNextPlan.dataLimit +
          max 0 (d - samplePlanUser.usedTraffic))) ∧
      (sampleNextPlan.addRemainingTraffic = true →
        samplePlanUser.dataLimit = none →
        u2.dataLimit = some sampleNextPlan.dataLimit) ∧
      (∀ e, sampleNextPlan.expire = some e → u2.expire = some e) ∧
      (sampleNextPlan.expire = none → u2.expire = samplePlanUser.expire) ∧
      (∀ now webhookConfigured percentThresholds dayThresholds percentRows
          dayRows,
        reviewDecision samplePlanUser (some sampleNextPlan) now =
          ReviewOutcome.rollover →
        processActiveUser samplePlanUser (some sampleNextPlan) now
            webhookConfigured percentThresholds dayThresholds percentRows
            dayRows =
          [Effect.rolloverApplied samplePlanUser.username]) :=
  C3_rollover_semantics samplePlanUser sampleNextPlan sampleNextPlan rfl
    (by decide)

/-- C1: evaluating the accumulator at the bucket-creation race.  The read
snapshot saw no row for user u, a concurrent writer then created the
(u, master, hour 0) bucket, and the call arrives with a delta of 5: the
insert_many hits the unique index and the uncaught duplicate-key error
aborts the whole call — creation failure is an error here, not success, and
the increment is never issued. -/
theorem C1_bucket_creation_race_errors :
    recordUserStatsPhased [] [(⟨"u", none, 0⟩, 0)] [("u", 5)] none 0 1 =
      Except.error "DuplicateKeyError" := rfl

/-- find? over a map by a key-preserving function. -/
theorem find?_map_eq {α : Type} (key : α → String) (l : List α) (k : String)
    (f : α → α) (hid : ∀ v, key (f v) = key v) :
    (l.map f).find? (fun v => key v = k) =
      (l.find? (fun v => key v = k)).map f := by
  induction l with
  | nil => rfl
  | cons v rest ih =>
    simp only [List.map_cons, List.find?]
    rw [hid v]
    by_cases h : key v = k
    · simp [h]
    · simp [h, ih]

/-- Lookup of used_traffic after an id-preserving rewrite of the users
collection. -/
theorem userTrafficOf_map (s : AccountStore) (f : UserDoc → UserDoc)
    (hid : ∀ v, (f v).id = v.id) (uid : String) :
    userTrafficOf { s with users := s.users.map f } uid =
      (match s.users.find? (fun v => v.id = uid) with
       | some v => some (f v).usedTraffic
       | none => none) := by
  unfold userTrafficOf
  simp only
  rw [find?_map_eq (fun v => v.id) s.users uid f hid]
  cases s.users.find? (fun v => v.id = uid) <;> rfl

/-- Lookup of users_usage after an id-preserving rewrite of the admins
collection. -/
theorem adminUsageOf_map (s : AccountStore) (f : AdminDoc → AdminDoc)
    (hid : ∀ v, (f v).id = v.id) (aid : String) :
    adminUsageOf { s with admins := s.admins.map f } aid =
      (match s.admins.find? (fun v => v.id = aid) with
       | some v => some (f v).usersUsage
       | none => none) := by
  unfold adminUsageOf
  simp only
  rw [find?_map_eq (fun v => v.id) s.admins aid f hid]
  cases s.admins.find? (fun v => v.id = aid) <;> rfl

/-- bucketValue unfolded one row at a time. -/
theorem bucketValue_cons (r : BucketKey × Int) (rest : BucketStore)
    (k : BucketKey) :
    bucketValue (r :: rest) k =
      if r.1 = k then some r.2 else bucketValue rest k := by
  unfold bucketValue
  simp only [List.find?]
  by_cases h : r.1 = k
  · simp [h]
  · simp [h]

/-- A bucket increment by a non-negative delta never decreases any bucket
value. -/
theorem updateNodeUserUsage_monotone (store : BucketStore) (uid : String)
    (nodeId : Option String) (hour : Int) (v : Int) (hv : 0 ≤ v)
    (k : BucketKey) (t0 : Int) (h : bucketValue store k = some t0) :
    ∃ t1, bucketValue (updateNodeUserUsage store uid nodeId hour v) k =
      some t1 ∧ t0 ≤ t1 := by
  induction store with
  | nil => exact absurd h (by simp [bucketValue])
  | cons r rest ih =>
    rw [bucketValue_cons] at h
    unfold updateNodeUserUsage
    by_cases hr : r.1 = (⟨uid, nodeId, hour⟩ : BucketKey)
    · rw [if_pos hr]
      by_cases hk : r.1 = k
      · rw [if_pos hk] at h
        simp only [Option.some.injEq] at h
        refine ⟨r.2 + v, ?_, ?_⟩
        · rw [bucketValue_cons]
          simp [hk]
        · omega
      · rw [if_neg hk] at h
        refine ⟨t0, ?_, le_refl t0⟩
        rw [bucketValue_cons]
        simp only [hk, if_neg, if_false]
        exact h
    · rw [if_neg hr]
      by_cases hk : r.1 = k
      · rw [if_pos hk] at h
        refine ⟨t0, ?_, le_refl t0⟩
        rw [bucketValue_cons, if_pos hk]
        exact h
      · rw [if_neg hk] at h
        obtain ⟨t1, h1, h2⟩ := ih h
        refine ⟨t1, ?_, h2⟩
        rw [bucketValue_cons, if_neg hk]
        exact h1

/-- One step of update_users_usage never decreases a known used_traffic. -/
theorem userTrafficOf_inc_step (s : AccountStore) (p : String × Int)
    (hp : 0 ≤ p.2) (uid : String) (t : Int)
    (h : userTrafficOf s uid = some t) :
    ∃ t1, userTrafficOf { s with users := s.users.map (fun v =>
        if v.id = p.1 then { v with usedTraffic := v.usedTraffic + p.2 }
        else v) } uid = some t1 ∧ t ≤ t1 := by
  rw [userTrafficOf_map s _ (fun v => by split <;> rfl) uid]
  unfold userTrafficOf at h
  cases hf : s.users.find? (fun v => v.id = uid) with
  | none => rw [hf] at h; exact absurd h (by simp)
  | some v =>
    rw [hf] at h
    simp only [Option.some.injEq] at h
    by_cases hv : v.id = p.1
    · exact ⟨v.usedTraffic + p.2, by simp [hv], by omega⟩
    · exact ⟨t, by simp [hv, h], le_refl t⟩

/-- update_users_usage with non-negative deltas never decreases a known
used_traffic. -/
theorem userTrafficOf_update_users_usage (s : AccountStore)
    (usages : List (String × Int)) (hpos : ∀ p ∈ usages, 0 ≤ p.2)
    (uid : String) (t : Int) (h : userTrafficOf s uid = some t) :
    ∃ t2, userTrafficOf (update_users_usage s usages) uid = some t2 ∧
      t ≤ t2 := by
  induction usages generalizing s t with
  | nil => exact ⟨t, h, le_refl t⟩
  | cons p rest ih =>
    obtain ⟨t1, h1, h2⟩ :=
      userTrafficOf_inc_step s p (hpos p (List.mem_cons_self p rest)) uid t h
    obtain ⟨t2, h3, h4⟩ :=
      ih _ (fun q hq => hpos q (List.mem_cons_of_mem p hq)) t1 h1
    exact ⟨t2, h3, le_trans h2 h4⟩

/-- One step of update_admins_usage never decreases a known users_usage. -/
theorem adminUsageOf_inc_step (s : AccountStore) (p : String × Int)
    (hp : 0 ≤ p.2) (aid : String) (w : Int)
    (h : adminUsageOf s aid = some w) :
    ∃ w1, adminUsageOf { s with admins := s.admins.map (fun a =>
        if a.id = p.1 then { a with usersUsage := a.usersUsage + p.2 }
        else a) } aid = some w1 ∧ w ≤ w1 := by
  rw [adminUsageOf_map s _ (fun a => by split <;> rfl) aid]
  unfold adminUsageOf at h
  cases hf : s.admins.find? (fun a => a.id = aid) with
  | none => rw [hf] at h; exact absurd h (by simp)
  | some a =>
    rw [hf] at h
    simp only [Option.some.injEq] at h
    by_cases hv : a.id = p.1
    · exact ⟨a.usersUsage + p.2, by simp [hv], by omega⟩
    · exact ⟨w, by simp [hv, h], le_refl w⟩

/-- update_admins_usage with non-negative deltas never decreases a known
users_usage. -/
theorem adminUsageOf_update_admins_usage (s : AccountStore)
    (usages : List (String × Int)) (hpos : ∀ p ∈ usages, 0 ≤ p.2)
    (aid : String) (w : Int) (h : adminUsageOf s aid = some w) :
    ∃ w2, adminUsageOf (update_admins_usage s usages) aid = some w2 ∧
      w ≤ w2 := by
  induction usages generalizing s w with
  | nil => exact ⟨w, h, le_refl w⟩
  | cons p rest ih =>
    obtain ⟨w1, h1, h2⟩ :=
      adminUsageOf_inc_step s p (hpos p (List.mem_cons_self p rest)) aid w h
    obtain ⟨w2, h3, h4⟩ :=
      ih _ (fun q hq => hpos q (List.mem_cons_of_mem p hq)) w1 h1
    exact ⟨w2, h3, le_trans h2 h4⟩

/-- C9 counterexample: reset_all_users_data_usage is an explicit reset that
zeroes a user holding 5 recorded bytes while writing no audit-log row at
all, so not every explicit reset captures the pre-reset value. -/
theorem C9_bulk_reset_writes_no_log :
    userTrafficOf sampleAccountStore "u1" = some 5 ∧
    userTrafficOf (reset_all_users_data_usage sampleAccountStore none)
      "u1" = some 0 ∧
    (reset_all_users_data_usage sampleAccountStore none).userLogs = [] ∧
    (reset_all_users_data_usage sampleAccountStore none).adminLogs = [] :=
  ⟨rfl, rfl, rfl, rfl⟩

/-- C9 (amended): the single-user reset and the admin reset write an
audit-log row capturing the pre-reset usage before zeroing; the usage
increments on user, admin and bucket counters never decrease them when the
applied deltas are non-negative; but the bulk reset_all_users_data_usage
zeroes user counters without writing any audit row. -/
theorem C9_reset_and_monotonicity (s : AccountStore) (uid aid : String)
    (t w : Int) (hu : userTrafficOf s uid = some t)
    (ha : adminUsageOf s aid = some w) :
    (reset_user_data_usage s uid).userLogs = s.userLogs ++ [⟨uid, t⟩] ∧
    userTrafficOf (reset_user_data_usage s uid) uid = some 0 ∧
    (reset_admin_usage s aid).adminLogs = s.adminLogs ++ [⟨aid, w⟩] ∧
    adminUsageOf (reset_admin_usage s aid) aid = some 0 ∧
    (∀ usages, (∀ p ∈ usages, 0 ≤ p.2) →
      ∃ t2, userTrafficOf (update_users_usage s usages) uid = some t2 ∧
        t ≤ t2) ∧
    (∀ usages, (∀ p ∈ usages, 0 ≤ p.2) →
      ∃ w2, adminUsageOf (update_admins_usage s usages) aid = some w2 ∧
        w ≤ w2) ∧
    (∀ (store : BucketStore) (uid2 : String) (nodeId : Option String)
        (hour v t0 : Int) (k : BucketKey), 0 ≤ v →
      bucketValue store k = some t0 →
      ∃ t1, bucketValue (updateNodeUserUsage store uid2 nodeId hour v) k =
        some t1 ∧ t0 ≤ t1) ∧
    (∀ adminFilter,
      (reset_all_users_data_usage s adminFilter).userLogs = s.userLogs ∧
      (reset_all_users_data_usage s adminFilter).adminLogs = s.adminLogs) := by
  unfold userTrafficOf at hu
  unfold adminUsageOf at ha
  cases hfu : s.users.find? (fun v => v.id = uid) with
  | none => rw [hfu] at hu; exact absurd hu (by simp)
  | some u0 =>
  cases hfa : s.admins.find? (fun a => a.id = aid) with
  | none => rw [hfa] at ha; exact absurd ha (by simp)
  | some a0 =>
  rw [hfu] at hu
  rw [hfa] at ha
  simp only [Option.some.injEq] at hu ha
  have hu0 : u0.id = uid := by
    have := List.find?_some hfu
    simpa using this
  have ha0 : a0.id = aid := by
    have := List.find?_some hfa
    simpa using this
  have e1 : reset_user_data_usage s uid =
      { s with
        userLogs := s.userLogs ++ [⟨uid, u0.usedTraffic⟩],
        users := s.users.map (fun v =>
          if v.id = uid then { v with usedTraffic := 0 } else v) } := by
    unfold reset_user_data_usage
    rw [hfu]
  have e2 : reset_admin_usage s aid =
      { s with
        adminLogs := s.adminLogs ++ [⟨aid, a0.usersUsage⟩],
        admins := s.admins.map (fun b =>
          if b.id = aid then { b with usersUsage := 0 } else b) } := by
    unfold reset_admin_usage
    rw [hfa]
  refine ⟨?_, ?_, ?_, ?_, ?_, ?_, ?_, ?_⟩
  · rw [e1]
    dsimp only
    rw [hu]
  · rw [e1]
    unfold userTrafficOf
    dsimp only
    rw [find?_map_eq (fun v => v.id) s.users uid _
      (fun v => by dsimp only; split <;> rfl), hfu]
    simp [hu0]
  · rw [e2]
    dsimp only
    rw [ha]
  · rw [e2]
    unfold adminUsageOf
    dsimp only
    rw [find?_map_eq (fun v => v.id) s.admins aid _
      (fun a => by dsimp only; split <;> rfl), hfa]
    simp [ha0]
  · intro usages hpos
    refine userTrafficOf_update_users_usage s usages hpos uid t ?_
    unfold userTrafficOf
    rw [hfu]
    simp [hu]
  · intro usages hpos
    refine adminUsageOf_update_admins_usage s usages hpos aid w ?_
    unfold adminUsageOf
    rw [hfa]
    simp [ha]
  · intro store uid2 nodeId hour v t0 k hv hb
    exact updateNodeUserUsage_monotone store uid2 nodeId hour v hv k t0 hb
  · intro adminFilter
    cases adminFilter <;> exact ⟨rfl, rfl⟩

/-- C9 witness: the reset and monotonicity properties evaluated on the
concrete store with one user at 5 bytes and one admin at 7. -/
theorem C9_reset_and_monotonicity_witness :
    (reset_user_data_usage sampleAccountStore "u1").userLogs =
      sampleAccountStore.userLogs ++ [⟨"u1", 5⟩] ∧
    userTrafficOf (reset_user_data_usage sampleAccountStore "u1") "u1" =
      some 0 ∧
    (reset_admin_usage sampleAccountStore "a1").adminLogs =
      sampleAccountStore.adminLogs ++ [⟨"a1", 7⟩] ∧
    adminUsageOf (reset_admin_usage sampleAccountStore "a1") "a1" =
      some 0 ∧
    (∀ usages, (∀ p ∈ usages, 0 ≤ p.2) →
      ∃ t2, userTrafficOf (update_users_usage sampleAccountStore usages)
        "u1" = some t2 ∧ 5 ≤ t2) ∧
    (∀ usages, (∀ p ∈ usages, 0 ≤ p.2) →
      ∃ w2, adminUsageOf (update_admins_usage sampleAccountStore usages)
        "a1" = some w2 ∧ 7 ≤ w2) ∧
    (∀ (store : BucketStore) (uid2 : String) (nodeId : Option String)
        (hour v t0 : Int) (k : BucketKey), 0 ≤ v →
      bucketValue store k = some t0 →
      ∃ t1, bucketValue (updateNodeUserUsage store uid2 nodeId hour v) k =
        some t1 ∧ t0 ≤ t1) ∧
    (∀ adminFilter,
      (reset_all_users_data_usage sampleAccountStore adminFilter).userLogs =
        sampleAccountStore.userLogs ∧
      (reset_all_users_data_usage sampleAccountStore adminFilter).adminLogs =
        sampleAccountStore.adminLogs) :=
  C9_reset_and_monotonicity sampleAccountStore "u1" "a1" 5 7 rfl rfl

/-- If every unit before u succeeds and the unit for u raises, the review
loop propagates the error, so the users after u are never processed. -/
theorem reviewRun_append_error (process : UserRec → Except String (List Effect))
    (e : String) (u : UserRec) (ys : List UserRec) :
    ∀ xs, (∀ v ∈ xs, ∃ es, process v = Except.ok es) →
      process u = Except.error e →
      reviewRun (xs ++ u :: ys) process = Except.error e := by
  intro xs
  induction xs with
  | nil =>
    intro _ herr
    simp [reviewRun, herr]
  | cons v rest ih =>
    intro hok herr
    obtain ⟨es, hv⟩ := hok v (List.mem_cons_self v rest)
    have h2 := ih (fun q hq => hok q (List.mem_cons_of_mem v hq)) herr
    simp [reviewRun, hv, h2]

/-- C8 counterexample: a review cycle over two users in which the first
unit raises ends as an error instead of continuing with the remaining user,
so one failing per-user unit does abort the enclosing batch. -/
theorem C8_one_failure_aborts_batch :
    reviewRun [failUserA, failUserB] failingProcess =
      Except.error "notify failed" := rfl

/-- C8 (amended): a failing node poll is isolated — get_users_stats turns an
XrayError into an empty contribution and the cycle continues — but per-user
review units are not isolated: when one unit raises, the error propagates
out of the loop and the remaining users of that cycle are not processed. -/
theorem C8_poll_isolated_user_not (xs ys : List UserRec) (u : UserRec)
    (process : UserRec → Except String (List Effect)) (e : String)
    (hok : ∀ v ∈ xs, ∃ es, process v = Except.ok es)
    (herr : process u = Except.error e) :
    reviewRun (xs ++ u :: ys) process = Except.error e ∧
    ∀ err, getUsersStats (Except.error err) = [] :=
  ⟨reviewRun_append_error process e u ys xs hok herr, fun _ => rfl⟩

/-- C8 witness: with user b succeeding first and the unit for user a
raising, the cycle ends in the error and never reaches the users after a. -/
theorem C8_poll_isolated_user_not_witness :
    reviewRun ([failUserB] ++ failUserA :: [failUserB]) failingProcess =
      Except.error "notify failed" ∧
    ∀ err, getUsersStats (Except.error err) = [] :=
  C8_poll_isolated_user_not [failUserB] [failUserB] failUserA failingProcess
    "notify failed"
    (fun v hv => by
      simp only [List.mem_singleton] at hv
      subst hv
      exact ⟨[], rfl⟩)
    rfl

/-- A defaultdict update changes exactly the looked-up entry. -/
theorem usageOf_addParam (acc : List (String × Int)) (u : String) (v : Int)
    (w : String) :
    usageOf (addParam acc u v) w =
      usageOf acc w + (if u = w then v else 0) := by
  induction acc with
  | nil =>
    by_cases h : u = w <;> simp [addParam, usageOf, h]
  | cons p rest ih =>
    obtain ⟨a, x⟩ := p
    by_cases hau : a = u
    · subst hau
      by_cases haw : a = w <;> simp [addParam, usageOf, haw]
    · by_cases haw : a = w
      · have huw : u ≠ w := by
          rw [← haw]
          exact fun hh => hau hh.symm
        have hwu : w ≠ u := fun hh => huw hh.symm
        simp [addParam, usageOf, hau, haw, huw, hwu]
      · simp [addParam, usageOf, hau, haw, ih]

/-- Folding defaultdict updates accumulates, per key, the sum of the values
inserted under that key. -/
theorem usageOf_foldl_addParam (f : String × Int → Int)
    (params : List (String × Int)) (acc : List (String × Int)) (w : String) :
    usageOf (params.foldl (fun a p => addParam a p.1 (f p)) acc) w =
      usageOf acc w +
        (params.map (fun p => if p.1 = w then f p else 0)).sum := by
  induction params generalizing acc with
  | nil => simp
  | cons p rest ih =>
    simp only [List.foldl_cons, List.map_cons, List.sum_cons]
    rw [ih, usageOf_addParam, add_assoc]

/-- The keys after a defaultdict update: unchanged when the key was already
present, appended otherwise. -/
theorem addParam_keys (acc : List (String × Int)) (u : String) (v : Int) :
    (addParam acc u v).map Prod.fst =
      if u ∈ acc.map Prod.fst then acc.map Prod.fst
      else acc.map Prod.fst ++ [u] := by
  induction acc with
  | nil => simp [addParam]
  | cons p rest ih =>
    by_cases h : p.1 = u
    · simp [addParam, h]
    · have hne : u ≠ p.1 := fun hh => h hh.symm
      by_cases hm : u ∈ rest.map Prod.fst <;>
        simp [addParam, h, ih, hne, hm]

/-- A defaultdict update keeps the keys without duplicates. -/
theorem addParam_keys_nodup (acc : List (String × Int)) (u : String)
    (v : Int) (h : (acc.map Prod.fst).Nodup) :
    ((addParam acc u v).map Prod.fst).Nodup := by
  rw [addParam_keys]
  by_cases hm : u ∈ acc.map Prod.fst
  · simpa [hm]
  · simp [hm, List.nodup_append, h]

/-- The per-source aggregation of get_users_stats produces one entry per
uid. -/
theorem getUsersStats_keys_nodup (res : Except Unit (List RawStat)) :
    ((getUsersStats res).map Prod.fst).Nodup := by
  cases res with
  | error e => simp [getUsersStats]
  | ok stats =>
    unfold getUsersStats
    have haux : ∀ (l : List RawStat) (acc : List (String × Int)),
        (acc.map Prod.fst).Nodup →
        ((l.foldl (fun a s => addParam a s.uid s.value) acc).map
          Prod.fst).Nodup := by
      intro l
      induction l with
      | nil => intro acc h; simpa
      | cons s rest ih =>
        intro acc h
        exact ih _ (addParam_keys_nodup acc s.uid s.value h)
    exact haux _ [] (by simp)

/-- An absent key reads as zero. -/
theorem usageOf_eq_zero_of_not_mem (l : List (String × Int)) (w : String)
    (h : w ∉ l.map Prod.fst) :
    usageOf l w = 0 := by
  induction l with
  | nil => rfl
  | cons p rest ih =>
    simp only [List.map_cons, List.mem_cons] at h
    push_neg at h
    have hne : p.1 ≠ w := fun hh => h.1 hh.symm
    simp [usageOf, hne, ih h.2]

/-- An indicator sum over a list that never carries the key is zero. -/
theorem sum_indicator_eq_zero (l : List (String × Int)) (w : String)
    (g : Int → Int) (h : w ∉ l.map Prod.fst) :
    (l.map (fun p => if p.1 = w then g p.2 else 0)).sum = 0 := by
  induction l with
  | nil => rfl
  | cons p rest ih =>
    simp only [List.map_cons, List.mem_cons] at h
    push_neg at h
    have hne : p.1 ≠ w := fun hh => h.1 hh.symm
    simp [hne, ih h.2]

/-- Over a list with duplicate-free keys, the indicator sum for a key is the
image of its looked-up value, for any g with g 0 = 0. -/
theorem sum_indicator_nodup (l : List (String × Int)) (w : String)
    (g : Int → Int) (hg : g 0 = 0) (h : (l.map Prod.fst).Nodup) :
    (l.map (fun p => if p.1 = w then g p.2 else 0)).sum =
      g (usageOf l w) := by
  induction l with
  | nil => simp [usageOf, hg]
  | cons p rest ih =>
    simp only [List.map_cons, List.nodup_cons] at h
    by_cases hw : p.1 = w
    · subst hw
      have hz := sum_indicator_eq_zero rest p.1 g h.1
      simp [usageOf, hz]
    · simp [usageOf, hw, ih h.2]

/-- pyInt of a zero product is zero. -/
theorem pyInt_zero_mul (c : ℚ) : pyInt (((0 : Int) : ℚ) * c) = 0 := by
  rw [show (((0 : Int) : ℚ) * c) = 0 by push_cast; ring]
  rfl

/-- The contribution of one polled source to one uid equals the truncated
product of its aggregated per-uid delta and its coefficient. -/
theorem source_contribution (poll : Except Unit (List RawStat)) (c : ℚ)
    (w : String) :
    ((getUsersStats poll).map
      (fun p => if p.1 = w then pyInt ((p.2 : ℚ) * c) else 0)).sum =
      pyInt ((usageOf (getUsersStats poll) w : ℚ) * c) :=
  sum_indicator_nodup _ w (fun x => pyInt ((x : ℚ) * c))
    (pyInt_zero_mul c) (getUsersStats_keys_nodup poll)

/-- The merge loop of record_user_usages accumulates, per uid, the sum of
the per-source truncated scaled deltas. -/
theorem mergeUsersUsage_aux (sources : List SourcePoll)
    (acc : List (String × Int)) (w : String) :
    usageOf (sources.foldl (fun accS src =>
        (getUsersStats src.poll).foldl
          (fun acc2 p =>
            addParam acc2 p.1 (pyInt ((p.2 : ℚ) * src.coefficient)))
          accS) acc) w =
      usageOf acc w +
        (sources.map (fun src =>
          pyInt ((usageOf (getUsersStats src.poll) w : ℚ) *
            src.coefficient))).sum := by
  induction sources generalizing acc with
  | nil => simp
  | cons src rest ih =>
    simp only [List.foldl_cons, List.map_cons, List.sum_cons]
    rw [ih, usageOf_foldl_addParam
      (fun p => pyInt ((p.2 : ℚ) * src.coefficient))
      (getUsersStats src.poll) acc w]
    rw [source_contribution, add_assoc]

/-- C5: the merged delta credited to a user is the sum, over the polled
sources, of that source's aggregated raw delta for the user multiplied by
the node's usage coefficient and truncated to an integer; a failed poll
contributes the empty list, hence zero, to every user; the bucket recorder
invoked with that empty list leaves the bucket collection untouched; and a
coefficient of 2 turns a raw delta of 100 into 200. -/
theorem C5_scaled_merge (sources : List SourcePoll) (w : String) :
    usageOf (mergeUsersUsage sources) w =
      (sources.map (fun src =>
        pyInt ((usageOf (getUsersStats src.poll) w : ℚ) *
          src.coefficient))).sum ∧
    (∀ err, getUsersStats (Except.error err) = []) ∧
    (∀ (store : BucketStore) (nodeId : Option String) (hour factor : Int),
      recordUserStats store (getUsersStats (Except.error ())) nodeId hour
        factor = Except.ok store) ∧
    pyInt ((100 : ℚ) * 2) = 200 := by
  refine ⟨?_, fun _ => rfl, fun _ _ _ _ => rfl, ?_⟩
  · have h := mergeUsersUsage_aux sources [] w
    simpa [mergeUsersUsage, usageOf] using h
  · rw [show ((100 : ℚ) * 2) = 200 by norm_num]
    unfold pyInt
    norm_num

/-- Membership through a descending insertion. -/
theorem mem_insertDesc (x a : Nat) (l : List Nat) :
    a ∈ insertDesc x l ↔ a = x ∨ a ∈ l := by
  induction l with
  | nil => simp [insertDesc]
  | cons y ys ih =>
    by_cases h : y ≤ x
    · simp [insertDesc, h]
    · simp [insertDesc, h, ih]
      tauto

/-- Descending insertion preserves the descending pairwise order. -/
theorem pairwise_insertDesc (x : Nat) (l : List Nat)
    (h : l.Pairwise (fun a b => b ≤ a)) :
    (insertDesc x l).Pairwise (fun a b => b ≤ a) := by
  induction l with
  | nil => simp [insertDesc]
  | cons y ys ih =>
    rcases List.pairwise_cons.mp h with ⟨hy, hys⟩
    by_cases hle : y ≤ x
    · rw [insertDesc, if_pos hle]
      refine List.pairwise_cons.mpr ⟨?_, h⟩
      intro b hb
      rcases List.mem_cons.mp hb with rfl | hb2
      · exact hle
      · exact le_trans (hy b hb2) hle
    · rw [insertDesc, if_neg hle]
      refine List.pairwise_cons.mpr ⟨?_, ih hys⟩
      intro b hb
      rcases (mem_insertDesc x b ys).mp hb with rfl | hb2
      · omega
      · exact hy b hb2

/-- sortDesc keeps exactly the members of the input. -/
theorem mem_sortDesc (a : Nat) (l : List Nat) :
    a ∈ sortDesc l ↔ a ∈ l := by
  induction l with
  | nil => simp [sortDesc]
  | cons x xs ih =>
    simp [sortDesc, mem_insertDesc, ih]

/-- sortDesc output is pairwise descending. -/
theorem pairwise_sortDesc (l : List Nat) :
    (sortDesc l).Pairwise (fun a b => b ≤ a) := by
  induction l with
  | nil => simp [sortDesc]
  | cons x xs ih => exact pairwise_insertDesc x (sortDesc xs) ih

/-- Membership through an ascending insertion. -/
theorem mem_insertAsc (x a : Nat) (l : List Nat) :
    a ∈ insertAsc x l ↔ a = x ∨ a ∈ l := by
  induction l with
  | nil => simp [insertAsc]
  | cons y ys ih =>
    by_cases h : x ≤ y
    · simp [insertAsc, h]
    · simp [insertAsc, h, ih]
      tauto

/-- Ascending insertion preserves the ascending pairwise order. -/
theorem pairwise_insertAsc (x : Nat) (l : List Nat)
    (h : l.Pairwise (fun a b => a ≤ b)) :
    (insertAsc x l).Pairwise (fun a b => a ≤ b) := by
  induction l with
  | nil => simp [insertAsc]
  | cons y ys ih =>
    rcases List.pairwise_cons.mp h with ⟨hy, hys⟩
    by_cases hle : x ≤ y
    · rw [insertAsc, if_pos hle]
      refine List.pairwise_cons.mpr ⟨?_, h⟩
      intro b hb
      rcases List.mem_cons.mp hb with rfl | hb2
      · exact hle
      · exact le_trans hle (hy b hb2)
    · rw [insertAsc, if_neg hle]
      refine List.pairwise_cons.mpr ⟨?_, ih hys⟩
      intro b hb
      rcases (mem_insertAsc x b ys).mp hb with rfl | hb2
      · omega
      · exact hy b hb2

/-- sortAsc keeps exactly the members of the input. -/
theorem mem_sortAsc (a : Nat) (l : List Nat) :
    a ∈ sortAsc l ↔ a ∈ l := by
  induction l with
  | nil => simp [sortAsc]
  | cons x xs ih =>
    simp [sortAsc, mem_insertAsc, ih]

/-- sortAsc output is pairwise ascending. -/
theorem pairwise_sortAsc (l : List Nat) :
    (sortAsc l).Pairwise (fun a b => a ≤ b) := by
  induction l with
  | nil => simp [sortAsc]
  | cons x xs ih => exact pairwise_insertAsc x (sortAsc xs) ih

/-- On a descending list the first satisfying element dominates every
satisfying member. -/
theorem find?_pairwise_max {l : List Nat} {P : Nat → Bool} {p : Nat}
    (hs : l.Pairwise (fun a b => b ≤ a)) (hf : l.find? P = some p) :
    ∀ q ∈ l, P q = true → q ≤ p := by
  induction l with
  | nil => simp at hf
  | cons x xs ih =>
    rcases List.pairwise_cons.mp hs with ⟨hx, hxs⟩
    by_cases hPx : P x = true
    · rw [List.find?_cons_of_pos _ hPx] at hf
      injection hf with hf
      subst hf
      intro q hq hPq
      rcases List.mem_cons.mp hq with rfl | hq2
      · exact le_refl q
      · exact hx q hq2
    · rw [List.find?_cons_of_neg _ (by simpa using hPx)] at hf
      intro q hq hPq
      rcases List.mem_cons.mp hq with rfl | hq2
      · exact absurd hPq hPx
      · exact ih hxs hf q hq2 hPq

/-- On an ascending list the first satisfying element is below every
satisfying member. -/
theorem find?_pairwise_min {l : List Nat} {P : Nat → Bool} {p : Nat}
    (hs : l.Pairwise (fun a b => a ≤ b)) (hf : l.find? P = some p) :
    ∀ q ∈ l, P q = true → p ≤ q := by
  induction l with
  | nil => simp at hf
  | cons x xs ih =>
    rcases List.pairwise_cons.mp hs with ⟨hx, hxs⟩
    by_cases hPx : P x = true
    · rw [List.find?_cons_of_pos _ hPx] at hf
      injection hf with hf
      subst hf
      intro q hq hPq
      rcases List.mem_cons.mp hq with rfl | hq2
      · exact le_refl q
      · exact hx q hq2
    · rw [List.find?_cons_of_neg _ (by simpa using hPx)] at hf
      intro q hq hPq
      rcases List.mem_cons.mp hq with rfl | hq2
      · exact absurd hPq hPx
      · exact ih hxs hf q hq2 hPq

/-- C6: when a percent notification fires it is for a configured threshold
at or below the usage percent, without a live reminder row, and it
dominates every configured threshold at or below the usage percent (the
descending scan stops there, so lower thresholds never also fire); the
days-left scan is symmetric, firing the least satisfied threshold; with
thresholds 50, 75, 90 and usage percent 82 exactly the 75 reminder fires,
at 93 with 75 already live the 90 reminder fires, and at 85 with 75 live
nothing fires. -/
theorem C6_threshold_dedup (percentThresholds dayThresholds : List Nat)
    (usagePercent : ℚ) (expireDays : Int) (percentRows dayRows : ReminderRows)
    (now : Int) :
    (∀ p, firedPercent percentThresholds usagePercent percentRows now =
        some p →
      p ∈ percentThresholds ∧ (p : ℚ) ≤ usagePercent ∧
      hasLiveReminder percentRows p now = false ∧
      ∀ q ∈ percentThresholds, (q : ℚ) ≤ usagePercent → q ≤ p) ∧
    (∀ d, firedDays dayThresholds expireDays dayRows now = some d →
      d ∈ dayThresholds ∧ expireDays ≤ (d : Int) ∧
      hasLiveReminder dayRows d now = false ∧
      ∀ q ∈ dayThresholds, expireDays ≤ (q : Int) → d ≤ q) ∧
    firedPercent [50, 75, 90] 82 [] now = some 75 ∧
    firedPercent [50, 75, 90] 93 [(75, none)] now = some 90 ∧
    firedPercent [50, 75, 90] 85 [(75, none)] now = none := by
  refine ⟨?_, ?_, ?_, ?_, ?_⟩
  · intro p hp
    unfold firedPercent at hp
    cases hc : percentCandidate percentThresholds usagePercent with
    | none => rw [hc] at hp; exact absurd hp (by simp)
    | some c =>
      rw [hc] at hp
      dsimp only at hp
      by_cases hl : hasLiveReminder percentRows c now
      · rw [if_pos hl] at hp
        exact absurd hp (by simp)
      · rw [if_neg hl] at hp
        simp only [Option.some.injEq] at hp
        subst hp
        unfold percentCandidate at hc
        refine ⟨(mem_sortDesc c percentThresholds).mp
          (List.mem_of_find?_eq_some hc), ?_, by simpa using hl, ?_⟩
        · have := List.find?_some hc
          simpa using this
        · intro q hq hql
          exact find?_pairwise_max (pairwise_sortDesc percentThresholds) hc
            q ((mem_sortDesc q percentThresholds).mpr hq)
            (by simpa using hql)
  · intro d hd
    unfold firedDays at hd
    cases hc : daysCandidate dayThresholds expireDays with
    | none => rw [hc] at hd; exact absurd hd (by simp)
    | some c =>
      rw [hc] at hd
      dsimp only at hd
      by_cases hl : hasLiveReminder dayRows c now
      · rw [if_pos hl] at hd
        exact absurd hd (by simp)
      · rw [if_neg hl] at hd
        simp only [Option.some.injEq] at hd
        subst hd
        unfold daysCandidate at hc
        refine ⟨(mem_sortAsc c dayThresholds).mp
          (List.mem_of_find?_eq_some hc), ?_, by simpa using hl, ?_⟩
        · have := List.find?_some hc
          simpa using this
        · intro q hq hql
          exact find?_pairwise_min (pairwise_sortAsc dayThresholds) hc
            q ((mem_sortAsc q dayThresholds).mpr hq)
            (by simpa using hql)
  · show firedPercent [50, 75, 90] 82 [] now = some 75
    unfold firedPercent percentCandidate
    norm_num [sortDesc, insertDesc, List.find?, hasLiveReminder]
  · show firedPercent [50, 75, 90] 93 [(75, none)] now = some 90
    unfold firedPercent percentCandidate
    norm_num [sortDesc, insertDesc, List.find?, hasLiveReminder]
  · show firedPercent [50, 75, 90] 85 [(75, none)] now = none
    unfold firedPercent percentCandidate
    norm_num [sortDesc, insertDesc, List.find?, hasLiveReminder]

/-- C6 witness: the general selection facts applied to the concrete first
cycle, showing the fired 75 threshold is configured, satisfied, without a
live reminder, and dominates 50. -/
theorem C6_threshold_dedup_witness :
    75 ∈ [50, 75, 90] ∧ ((75 : Nat) : ℚ) ≤ 82 ∧
    hasLiveReminder [] 75 0 = false ∧
    ∀ q ∈ [50, 75, 90], ((q : Nat) : ℚ) ≤ 82 → q ≤ 75 :=
  (C6_threshold_dedup [50, 75, 90] [7] 82 3 [] [] 0).1 75
    (by
      unfold firedPercent percentCandidate
      norm_num [sortDesc, insertDesc, List.find?, hasLiveReminder])

end Marzban
